import Mathlib

/-!
Shallow embedding of the core of the `gbasilveira/workflows` distributed DAG
workflow orchestrator, together with theorems settling the specification
claims about it.

Conventions used throughout:
* Go `map[string]X` values are embedded as association lists
  `List (String × X)` with unique keys, written to and read from with the
  `upsert` / `List.lookup` / `lookupD` helpers below.  Iteration order of a
  Go map is unspecified; where the source ranges over a map we fold over the
  association list, which fixes one admissible order (none of the proved
  properties depend on the order).
* Go `int` / `int64` fields are embedded as `Int` (or `Nat` for values that
  the source only ever increments starting from zero, such as the execution
  counter).
* External collaborators (node executors, the wire transport, service
  discovery, the system clock) are parameters of the corresponding model
  functions: their outcomes are supplied as explicit inputs.
* Concurrency: the source guards each piece of shared state with a mutex, so
  every observable history is an interleaving of atomic critical sections.
  The models take that interleaving (a schedule) as an explicit argument.
-/

/-- Inserts or replaces the binding of key `k` in an association list,
preserving the position of an existing binding (the embedding of a Go map
write `m[k] = v`). -/
def upsert {α : Type} : List (String × α) → String → α → List (String × α)
  | [], k, v => [(k, v)]
  | (k', v') :: rest, k, v =>
    if k' = k then (k, v) :: rest else (k', v') :: upsert rest k v

/-- Reads key `k` from an association list with default `d` (the embedding of
a Go map read `m[k]`, which yields the zero value when the key is absent). -/
def lookupD {α : Type} (l : List (String × α)) (k : String) (d : α) : α :=
  (List.lookup k l).getD d

/-- Removes the binding of key `k` (the embedding of Go `delete(m, k)`). -/
def eraseKey {α : Type} (l : List (String × α)) (k : String) : List (String × α) :=
  l.filter (fun p => p.1 != k)

theorem lookup_upsert_self {α : Type} (l : List (String × α)) (k : String) (v : α) :
    List.lookup k (upsert l k v) = some v := by
  induction l with
  | nil => simp [upsert, List.lookup]
  | cons p rest ih =>
    by_cases h : p.1 = k
    · simp [upsert, h, List.lookup]
    · have h2 : (k == p.1) = false := beq_eq_false_iff_ne.mpr (fun hh => h hh.symm)
      simp [upsert, h, h2, List.lookup, ih]

theorem lookup_upsert_ne {α : Type} (l : List (String × α)) (k k' : String) (v : α)
    (h : k' ≠ k) : List.lookup k' (upsert l k v) = List.lookup k' l := by
  induction l with
  | nil =>
    have h2 : (k' == k) = false := beq_eq_false_iff_ne.mpr h
    simp [upsert, List.lookup, h2]
  | cons p rest ih =>
    by_cases hp : p.1 = k
    · subst hp
      have h2 : (k' == p.1) = false := beq_eq_false_iff_ne.mpr h
      simp [upsert, List.lookup, h2]
    · by_cases hk : k' = p.1
      · simp [upsert, hp, List.lookup, hk]
      · have h2 : (k' == p.1) = false := beq_eq_false_iff_ne.mpr hk
        simp [upsert, hp, List.lookup, h2, ih]

theorem mem_upsert {α : Type} {l : List (String × α)} {k : String} {v : α} {q : String × α}
    (h : q ∈ upsert l k v) : q = (k, v) ∨ q ∈ l := by
  induction l with
  | nil => simpa [upsert] using h
  | cons p rest ih =>
    by_cases hp : p.1 = k
    · rw [upsert, if_pos hp] at h
      rcases List.mem_cons.mp h with h1 | h1
      · exact Or.inl h1
      · exact Or.inr (List.mem_cons_of_mem _ h1)
    · rw [upsert, if_neg hp] at h
      rcases List.mem_cons.mp h with h1 | h1
      · exact Or.inr (List.mem_cons.mpr (Or.inl h1))
      · rcases ih h1 with h2 | h2
        · exact Or.inl h2
        · exact Or.inr (List.mem_cons_of_mem _ h2)

namespace dagengine

/-- Embedding of `dagengine.Node` (`node.go`).  The `Task Executor` field is an
external collaborator; its behavior when invoked is recorded in `taskError`
(`none` means `Task.Execute` returns a result map, `some e` means it returns
the error `e`).  The `Result map[string]interface{}` content is irrelevant to
the claims and is tracked as the flag `result` (whether a result was stored). -/
structure Node where
  id : String
  dependencies : List String
  children : List String
  result : Bool
  status : String
  readyCounter : Int
  taskError : Option String
  deriving Repr, DecidableEq

/-- Embedding of `dagengine.NewNode`. -/
def NewNode (id : String) (deps : List String) (taskError : Option String) : Node :=
  { id := id
    dependencies := deps
    children := []
    result := false
    status := "PENDING"
    readyCounter := (deps.length : Int)
    taskError := taskError }

/-- Embedding of `dagengine.DAGEngine`: the `Nodes map[string]*Node` field. -/
structure DAGEngine where
  nodes : List (String × Node)
  deriving Repr, DecidableEq

/-- Embedding of `dagengine.NewDAGEngine`. -/
def NewDAGEngine : DAGEngine := { nodes := [] }

/-- Embedding of `DAGEngine.AddNode`: rejects a duplicate id, otherwise stores
the node.  (The source comment notes that the check that every id in
`node.Dependencies` exists is skipped here; it happens in `PreprocessDAG`.) -/
def AddNode (e : DAGEngine) (n : Node) : Except String DAGEngine :=
  if (List.lookup n.id e.nodes).isSome then
    Except.error ("node with ID already exists: " ++ n.id)
  else
    Except.ok { nodes := e.nodes ++ [(n.id, n)] }

/-- One pass of the adjacency-building loop of `PreprocessDAG` for a single
child node: for each `parentID` in its dependency list, fail if the parent
does not exist, otherwise append the child id to the parent `Children` list. -/
def addChildEdges (nodes : List (String × Node)) (childID : String)
    (deps : List String) : Except String (List (String × Node)) :=
  deps.foldl
    (fun acc parentID =>
      match acc with
      | Except.error e => Except.error e
      | Except.ok ns =>
        match List.lookup parentID ns with
        | none =>
          Except.error ("dependency error: node " ++ childID ++
            " depends on non-existent node " ++ parentID)
        | some parentNode =>
          Except.ok (upsert ns parentID
            { parentNode with children := parentNode.children ++ [childID] }))
    (Except.ok nodes)

/-- Embedding of `DAGEngine.PreprocessDAG`: clears every `Children` list,
rebuilds the adjacency lists, failing on a dependency that names a
non-existent node.  The source step 3 is only the comment
"(Optional but recommended): Run cycle detection here." — no cycle detection
is performed, so the function accepts cyclic graphs. -/
def PreprocessDAG (e : DAGEngine) : Except String DAGEngine :=
  let cleared := e.nodes.map (fun p => (p.1, { p.2 with children := ([] : List String) }))
  let built := cleared.foldl
    (fun acc p =>
      match acc with
      | Except.error e => Except.error e
      | Except.ok ns => addChildEdges ns p.1 p.2.dependencies)
    (Except.ok cleared)
  match built with
  | Except.error e => Except.error e
  | Except.ok ns => Except.ok { nodes := ns }

/-- Runtime state of one `Run` of the engine.  `running` is the set of nodes
whose `executeNode` goroutine has been spawned and has not yet returned;
`launches` logs, in order, each `go e.executeNode(...)` spawn. -/
structure RunState where
  nodes : List (String × Node)
  running : List String
  launches : List String
  deriving Repr, DecidableEq

/-- Spawning `go e.executeNode(ctx, n)`: the node is logged as launched and
marked RUNNING (setting `Status = "RUNNING"` is the first state change the
spawned `executeNode` performs). -/
def launchNode (st : RunState) (nid : String) : RunState :=
  match List.lookup nid st.nodes with
  | none => st
  | some n =>
    { nodes := upsert st.nodes nid { n with status := "RUNNING" }
      running := st.running ++ [nid]
      launches := st.launches ++ [nid] }

/-- The root-launch loop at the top of `DAGEngine.Run`: every node with an
empty dependency list is started. -/
def startRun (e : DAGEngine) : RunState :=
  e.nodes.foldl
    (fun st p => if p.2.dependencies.isEmpty then launchNode st p.1 else st)
    { nodes := e.nodes, running := [], launches := [] }

/-- Embedding of `DAGEngine.triggerChildren`: for each cached child id,
decrement its `ReadyCounter`; when the counter reaches zero and the child is
still PENDING, spawn its `executeNode`.  A child id missing from the node map
is skipped (the source `continue`). -/
def triggerChildren (st : RunState) (parentNode : Node) : RunState :=
  parentNode.children.foldl
    (fun st childID =>
      match List.lookup childID st.nodes with
      | none => st
      | some childNode =>
        let childNode1 := { childNode with readyCounter := childNode.readyCounter - 1 }
        let st1 := { st with nodes := upsert st.nodes childID childNode1 }
        if childNode1.readyCounter = 0 then
          if childNode1.status = "PENDING" then launchNode st1 childID else st1
        else st1)
    st

/-- The continuation of `executeNode` once the node executor
(`n.Task.Execute`) returns, for a node whose goroutine is running.  On an
executor error the node is marked FAILED and the function returns without
triggering children (the source also returns without releasing `n.mu`, and the
"Add logic to cascade failure (fail-fast)" comment marks the cascade as
unimplemented: no cancellation flag exists and no node is ever marked
CANCELLED).  On success the node is marked COMPLETED, its result stored, and
its children triggered. -/
def completeNode (st : RunState) (nid : String) : RunState :=
  if st.running.contains nid then
    match List.lookup nid st.nodes with
    | none => st
    | some n =>
      let st0 := { st with running := st.running.filter (fun x => x != nid) }
      match n.taskError with
      | some _ =>
        { st0 with nodes := upsert st0.nodes nid { n with status := "FAILED" } }
      | none =>
        let n1 := { n with status := "COMPLETED", result := true }
        let st1 := { st0 with nodes := upsert st0.nodes nid n1 }
        triggerChildren st1 n1
  else st

/-- Replays a schedule: the list of nodes whose executors return, in order.
Any interleaving of the concurrent `executeNode` goroutines observable
through the per-node critical sections corresponds to such a schedule. -/
def runSteps (st : RunState) (sched : List String) : RunState :=
  sched.foldl completeNode st

/-- Embedding of `DAGEngine.Run`: starts all root nodes, waits for the
wait-group (modeled by consuming the schedule), and then returns.  The source
ends with the comment "Check final status for overall success/failure" and the
statement `return nil`: the returned error is `nil` unconditionally, which the
first component (`none`) records. -/
def Run (e : DAGEngine) (sched : List String) : Option String × RunState :=
  (none, runSteps (startRun e) sched)

/-- Status of a node in a run state (empty string when the id is unknown). -/
def statusOf (st : RunState) (nid : String) : String :=
  match List.lookup nid st.nodes with
  | none => ""
  | some n => n.status

end dagengine

/-- A single-node graph whose executor fails: the node A has no dependencies
and its `Task.Execute` returns an error. -/
def engineC1 : dagengine.DAGEngine :=
  { nodes := [("A", dagengine.NewNode "A" [] (some "task A failed"))] }

/-- The graph after preprocessing (which succeeds: no dangling dependency). -/
def engineC1p : dagengine.DAGEngine :=
  (dagengine.PreprocessDAG engineC1).toOption.getD engineC1

/-- C1: the claim states a run containing a failed node returns a FAILED
error.  Evaluated on the graph whose only node A fails: `Run` reports no
error (`nil`) even though node A finished FAILED, because the source returns
`nil` unconditionally. -/
theorem C1_run_returns_nil_despite_failed_node :
    (dagengine.Run engineC1p ["A"]).1 = none ∧
    dagengine.statusOf (dagengine.Run engineC1p ["A"]).2 "A" = "FAILED" := by
  decide

/-- A two-node dependency cycle: A depends on B and B depends on A. -/
def engineC4cycle : dagengine.DAGEngine :=
  { nodes := [("A", dagengine.NewNode "A" ["B"] none),
              ("B", dagengine.NewNode "B" ["A"] none)] }

/-- A graph with a dependency on a node that does not exist. -/
def engineC4dangling : dagengine.DAGEngine :=
  { nodes := [("A", dagengine.NewNode "A" ["missing"] none)] }

/-- C4: the claim states preprocessing rejects cyclic graphs with
INVALID_GRAPH.  Evaluated on the two-node cycle: `PreprocessDAG` accepts it
(the cycle check is an unimplemented comment in the source), while the
dangling-dependency half of the validation does reject. -/
theorem C4_preprocess_accepts_cycle :
    (dagengine.PreprocessDAG engineC4cycle).isOk = true ∧
    (dagengine.PreprocessDAG engineC4dangling).isOk = false := by
  decide

/-- The fail-fast scenario graph: root A fails, root B succeeds, C depends on
B, D depends on A. -/
def engineC5 : dagengine.DAGEngine :=
  { nodes := [("A", dagengine.NewNode "A" [] (some "task A failed")),
              ("B", dagengine.NewNode "B" [] none),
              ("C", dagengine.NewNode "C" ["B"] none),
              ("D", dagengine.NewNode "D" ["A"] none)] }

/-- The scenario graph after preprocessing. -/
def engineC5p : dagengine.DAGEngine :=
  (dagengine.PreprocessDAG engineC5).toOption.getD engineC5

/-- C5: the claim states that after the first failure no still-PENDING node is
launched, and descendants of a failed node are marked CANCELLED.  Replaying
the schedule in which A (a root) fails first and B (an independent root)
returns afterwards: at the moment of the failure C is still PENDING and not
yet launched, yet C is subsequently launched when B completes, and no node is
ever marked CANCELLED (D, downstream of the failure, stays PENDING forever). -/
theorem C5_node_launched_after_first_failure :
    (dagengine.statusOf (dagengine.runSteps (dagengine.startRun engineC5p) ["A"]) "A"
        = "FAILED") ∧
    (dagengine.statusOf (dagengine.runSteps (dagengine.startRun engineC5p) ["A"]) "C"
        = "PENDING") ∧
    ((dagengine.runSteps (dagengine.startRun engineC5p) ["A"]).launches.contains "C"
        = false) ∧
    ((dagengine.runSteps (dagengine.startRun engineC5p) ["A", "B"]).launches.contains "C"
        = true) ∧
    (dagengine.statusOf (dagengine.runSteps (dagengine.startRun engineC5p) ["A", "B"]) "C"
        = "RUNNING") ∧
    (dagengine.statusOf (dagengine.runSteps (dagengine.startRun engineC5p) ["A", "B"]) "D"
        = "PENDING") ∧
    ((dagengine.runSteps (dagengine.startRun engineC5p) ["A", "B"]).nodes.all
        (fun p => p.2.status != "CANCELLED") = true) := by
  decide

namespace orchestrator

/-- Embedding of Go string comparison `v1 > v2` as used by `isNewerVersion`:
Go compares the raw bytes of the two strings lexicographically.  On the ASCII
version strings handled by the registry this coincides with lexicographic
comparison of the character sequences, which this function computes. -/
def bytesLess : List Char → List Char → Bool
  | [], [] => false
  | [], _ :: _ => true
  | _ :: _, [] => false
  | a :: as, b :: bs =>
    if a.toNat < b.toNat then true
    else if b.toNat < a.toNat then false
    else bytesLess as bs

/-- Embedding of `isNewerVersion` (`message.go`): the source comment reads
"assume lexicographic comparison for simplicity" and the body is `v1 > v2`
on Go strings. -/
def isNewerVersion (v1 v2 : String) : Bool :=
  bytesLess v2.data v1.data

/-- Metadata values stored in `map[string]interface{}` fields: the registry
only ever inspects string-typed entries (the type assertion `.(string)`), so
the embedding distinguishes strings from every other dynamic type. -/
inductive MetaValue
  | str (s : String)
  | other
  deriving Repr, DecidableEq

/-- Embedding of `NodeDefinition` (`message.go`). -/
structure NodeDefinition where
  nodeID : String
  dependencies : List String
  executorType : String
  executorCode : String
  metadata : List (String × MetaValue)
  deriving Repr, DecidableEq

/-- Embedding of `WorkflowDefinition` (`message.go`). -/
structure WorkflowDefinition where
  workflowID : String
  version : String
  name : String
  nodes : List NodeDefinition
  deriving Repr, DecidableEq

/-- Embedding of `WorkflowVersion` (`message.go`); the mutex is dropped
(operations are modeled as atomic). -/
structure WorkflowVersion where
  workflowID : String
  version : String
  definition : WorkflowDefinition
  createdAt : Int
  dependencies : List String
  dependents : List String
  deriving Repr, DecidableEq

/-- Embedding of `VersionManager` (`message.go`): the two maps
`versions : workflowID -> version -> WorkflowVersion` and
`latest : workflowID -> WorkflowVersion`. -/
structure VersionManager where
  versions : List (String × List (String × WorkflowVersion))
  latest : List (String × WorkflowVersion)
  deriving Repr, DecidableEq

/-- Embedding of `NewVersionManager`. -/
def NewVersionManager : VersionManager := { versions := [], latest := [] }

/-- The dependent-scan loop of `VersionManager.updateDependencies`: collect,
for every other workflow id, one occurrence of that id per stored version
whose `Dependencies` list contains `workflowID` (the source `break` leaves the
innermost loop only).  Note the loop computes the dependents OF the workflow
being registered; it never adds the registering workflow to the `Dependents`
of the workflows it references — the second loop of the source (the
update-the-dependency-lists loop) locks and unlocks each such record
without modifying it. -/
def computeDependents (versions : List (String × List (String × WorkflowVersion)))
    (workflowID : String) : List String :=
  versions.foldl
    (fun acc p =>
      if p.1 = workflowID then acc
      else
        p.2.foldl
          (fun acc2 q =>
            if q.2.dependencies.contains workflowID then acc2 ++ [p.1] else acc2)
          acc)
    []

/-- Embedding of `VersionManager.RegisterVersion`: rejects empty ids and
versions, stores the record, promotes it to `latest` when `isNewerVersion`
holds (or the id is new), and runs `updateDependencies`.  The source stores a
pointer that `updateDependencies` then mutates, so the record visible in both
maps afterwards carries the computed `Dependents`; the embedding computes the
final record first and stores it in both places. -/
def RegisterVersion (vm : VersionManager) (version : WorkflowVersion) :
    Except String VersionManager :=
  if version.workflowID = "" then Except.error "workflow ID cannot be empty"
  else if version.version = "" then Except.error "workflow version cannot be empty"
  else
    let vers0 := lookupD vm.versions version.workflowID []
    let versions1 := upsert vm.versions version.workflowID
      (upsert vers0 version.version version)
    let version1 := { version with
      dependents := computeDependents versions1 version.workflowID }
    let versions2 := upsert vm.versions version.workflowID
      (upsert vers0 version.version version1)
    let updateLatest :=
      match List.lookup version.workflowID vm.latest with
      | none => true
      | some latest => isNewerVersion version.version latest.version
    let latest1 :=
      if updateLatest then upsert vm.latest version.workflowID version1 else vm.latest
    Except.ok { versions := versions2, latest := latest1 }

/-- Embedding of `VersionManager.CanUpdate`: result is
`(ok, dependents, reason)` with `reason = none` on success (the source returns
a `nil` error). -/
def CanUpdate (vm : VersionManager) (workflowID newVersion : String) :
    Bool × List String × Option String :=
  match List.lookup workflowID vm.versions with
  | none => (true, [], none)
  | some versionsOfID =>
    match List.lookup workflowID vm.latest with
    | none => (true, [], none)
    | some currentLatest =>
      if currentLatest.dependents.length > 0 then
        (false, currentLatest.dependents, some "workflow has dependents, cannot update safely")
      else if !(isNewerVersion newVersion currentLatest.version) then
        (false, [], some "version is not newer than current")
      else if (List.lookup newVersion versionsOfID).isSome then
        (false, [], some "version already exists")
      else (true, [], none)

/-- Embedding of `VersionManager.GetLatestVersion`. -/
def GetLatestVersion (vm : VersionManager) (workflowID : String) :
    Except String WorkflowVersion :=
  match List.lookup workflowID vm.latest with
  | none => Except.error ("workflow not found: " ++ workflowID)
  | some latest => Except.ok latest

/-- Embedding of `VersionManager.GetDependents`: the `Dependents` of the
latest version, or nil when the id is unknown. -/
def GetDependents (vm : VersionManager) (workflowID : String) : List String :=
  match List.lookup workflowID vm.latest with
  | none => []
  | some latest => latest.dependents

/-- Embedding of `extractDependencies` (`workflow_manager.go`): scans node
metadata for entries `workflow_type = "sub-workflow"` carrying a string
`workflow_id`, deduplicated through the intermediate `depMap` set. -/
def extractDependencies (definition : WorkflowDefinition) : List String :=
  (definition.nodes.filterMap
    (fun node =>
      match List.lookup "workflow_type" node.metadata with
      | some (MetaValue.str t) =>
        if t = "sub-workflow" then
          match List.lookup "workflow_id" node.metadata with
          | some (MetaValue.str wfID) => some wfID
          | _ => none
        else none
      | _ => none)).dedup

/-- Embedding of `WorkflowManager` (`workflow_manager.go`).  A registered
builder is a side-effect-free function returning a definition or an error; it
is embedded by the value it returns.  The per-workflow `metadata` map is not
consulted by any claim and is omitted. -/
structure WorkflowManager where
  versions : VersionManager
  builders : List (String × Except String WorkflowDefinition)
  deriving Repr

/-- Embedding of `NewWorkflowManager`. -/
def NewWorkflowManager : WorkflowManager :=
  { versions := NewVersionManager, builders := [] }

/-- Embedding of `WorkflowManager.RegisterWorkflow`: gate through `CanUpdate`
(reporting the dependents list when non-empty), build and validate the
definition, extract sub-workflow dependencies, and register the version. -/
def RegisterWorkflow (wm : WorkflowManager) (workflowID version : String)
    (builder : Except String WorkflowDefinition) (createdAt : Int) :
    Except String WorkflowManager :=
  let r := CanUpdate wm.versions workflowID version
  if !r.1 then
    if r.2.1.length > 0 then
      Except.error ("cannot update workflow " ++ workflowID ++ ": has dependents")
    else
      Except.error ((r.2.2).getD "cannot update workflow")
  else
    match builder with
    | Except.error e => Except.error ("failed to build workflow definition: " ++ e)
    | Except.ok definition =>
      let wfVersion : WorkflowVersion :=
        { workflowID := workflowID
          version := version
          definition := definition
          createdAt := createdAt
          dependencies := extractDependencies definition
          dependents := [] }
      match RegisterVersion wm.versions wfVersion with
      | Except.error e => Except.error ("failed to register version: " ++ e)
      | Except.ok vm1 =>
        Except.ok { versions := vm1, builders := upsert wm.builders workflowID builder }

/-- Folds a list of `RegisterVersion` calls over a manager, keeping the prior
state whenever a call reports an error. -/
def applyRegisters (vm : VersionManager) (regs : List WorkflowVersion) : VersionManager :=
  regs.foldl
    (fun vm v =>
      match RegisterVersion vm v with
      | Except.ok vm1 => vm1
      | Except.error _ => vm)
    vm

end orchestrator

/-- A plain node with no sub-workflow reference. -/
def nodePlain (nid : String) : orchestrator.NodeDefinition :=
  { nodeID := nid, dependencies := [], executorType := "lua",
    executorCode := "", metadata := [] }

/-- A node whose metadata marks it as a sub-workflow call of workflow `w`. -/
def nodeSubW : orchestrator.NodeDefinition :=
  { nodeID := "call-w", dependencies := [], executorType := "lua",
    executorCode := "",
    metadata := [("workflow_type", orchestrator.MetaValue.str "sub-workflow"),
                 ("workflow_id", orchestrator.MetaValue.str "w")] }

/-- Definition built for workflow w, version 1.0.0. -/
def defW1 : orchestrator.WorkflowDefinition :=
  { workflowID := "w", version := "1.0.0", name := "w", nodes := [nodePlain "n1"] }

/-- Definition built for workflow x, version 1.0.0, referencing w as a
sub-workflow. -/
def defX1 : orchestrator.WorkflowDefinition :=
  { workflowID := "x", version := "1.0.0", name := "x", nodes := [nodeSubW] }

/-- Definition built for workflow w, version 2.0.0. -/
def defW2 : orchestrator.WorkflowDefinition :=
  { workflowID := "w", version := "2.0.0", name := "w", nodes := [nodePlain "n1"] }

/-- Manager state after registering w = 1.0.0. -/
def wmAfterW : orchestrator.WorkflowManager :=
  (orchestrator.RegisterWorkflow orchestrator.NewWorkflowManager "w" "1.0.0"
    (Except.ok defW1) 0).toOption.getD orchestrator.NewWorkflowManager

/-- Manager state after additionally registering x = 1.0.0 (whose node
metadata references w). -/
def wmAfterX : orchestrator.WorkflowManager :=
  (orchestrator.RegisterWorkflow wmAfterW "x" "1.0.0"
    (Except.ok defX1) 1).toOption.getD wmAfterW

/-- C2: the claim states that after registering x (which references w as a
sub-workflow), the latest version of w lists x among its dependents, and a
subsequent registration of w = 2.0.0 is rejected with HAS_DEPENDENTS ["x"].
Evaluated on exactly that sequence: both initial registrations succeed and x
extracts the dependency on w, yet the dependents list of the latest w stays
empty (updateDependencies only computes dependents OF the workflow being
registered and never updates the referenced workflow records), so
CanUpdate(w, 2.0.0) answers ok and the registration of w = 2.0.0 succeeds. -/
theorem C2_dependents_never_recorded_on_referenced_workflow :
    (orchestrator.RegisterWorkflow orchestrator.NewWorkflowManager "w" "1.0.0"
        (Except.ok defW1) 0).isOk = true ∧
    (orchestrator.RegisterWorkflow wmAfterW "x" "1.0.0"
        (Except.ok defX1) 1).isOk = true ∧
    orchestrator.extractDependencies defX1 = ["w"] ∧
    orchestrator.GetDependents wmAfterX.versions "w" = [] ∧
    orchestrator.CanUpdate wmAfterX.versions "w" "2.0.0" = (true, [], none) ∧
    (orchestrator.RegisterWorkflow wmAfterX "w" "2.0.0"
        (Except.ok defW2) 2).isOk = true := by
  decide

/-- Splits a character list at every dot (the spec-side parse of a
`major.minor.patch` version literal). -/
def splitOnDot : List Char → List (List Char)
  | [] => [[]]
  | c :: cs =>
    let r := splitOnDot cs
    if c = '.' then [] :: r
    else
      match r with
      | [] => [[c]]
      | g :: gs => (c :: g) :: gs

/-- Parses a non-empty all-digit character list as a decimal number. -/
def parseNatChars (l : List Char) : Option Nat :=
  if l.isEmpty then none
  else if l.all (fun ch => 48 ≤ ch.toNat && ch.toNat ≤ 57) then
    some (l.foldl (fun acc ch => 10 * acc + (ch.toNat - 48)) 0)
  else none

/-- The semantic version ordering the claim asserts, following the spec
words: versions are compared by semantic ordering on major.minor.patch.
This definition exists only to be compared against the source comparator
`isNewerVersion`; it embeds no source code. -/
def semVerNewer (v1 v2 : String) : Bool :=
  match splitOnDot v1.data, splitOnDot v2.data with
  | [a1, b1, c1], [a2, b2, c2] =>
    match parseNatChars a1, parseNatChars b1, parseNatChars c1,
          parseNatChars a2, parseNatChars b2, parseNatChars c2 with
    | some x1, some y1, some z1, some x2, some y2, some z2 =>
      decide (x2 < x1) ||
        (decide (x1 = x2) && (decide (y2 < y1) ||
          (decide (y1 = y2) && decide (z2 < z1))))
    | _, _, _, _, _, _ => false
  | _, _ => false

/-- A registry record for workflow w at the given version, with no
dependencies. -/
def wvW (ver : String) : orchestrator.WorkflowVersion :=
  { workflowID := "w", version := ver
    definition := { workflowID := "w", version := ver, name := "w",
                    nodes := [nodePlain "n1"] }
    createdAt := 0, dependencies := [], dependents := [] }

/-- Manager state after registering w = 1.9.0. -/
def wmAfter19 : orchestrator.WorkflowManager :=
  (orchestrator.RegisterWorkflow orchestrator.NewWorkflowManager "w" "1.9.0"
    (Except.ok { workflowID := "w", version := "1.9.0", name := "w",
                 nodes := [nodePlain "n1"] }) 0).toOption.getD
    orchestrator.NewWorkflowManager

/-- C3 counterexample: the registry comparator is Go string comparison, not
semantic ordering.  Concretely: 1.10.0 does not dominate 1.9.0 for the source
comparator (though it does semantically), registering 1.10.0 after 1.9.0 is
rejected as not newer, and after RegisterVersion of 10.0.0 followed by 9.0.0
the latest version is 9.0.0 — a move semantically backward. -/
theorem C3_counterexample_comparator_is_lexicographic :
    orchestrator.isNewerVersion "1.10.0" "1.9.0" = false ∧
    semVerNewer "1.10.0" "1.9.0" = true ∧
    (orchestrator.RegisterWorkflow wmAfter19 "w" "1.10.0"
        (Except.ok { workflowID := "w", version := "1.10.0", name := "w",
                     nodes := [nodePlain "n1"] }) 1).isOk = false ∧
    ((orchestrator.GetLatestVersion
        (orchestrator.applyRegisters orchestrator.NewVersionManager
          [wvW "10.0.0", wvW "9.0.0"]) "w").toOption.map
        (fun v => v.version)) = some "9.0.0" ∧
    semVerNewer "10.0.0" "9.0.0" = true := by
  decide

theorem bytesLess_trans (a : List Char) : ∀ b c : List Char,
    orchestrator.bytesLess a b = true → orchestrator.bytesLess b c = true →
    orchestrator.bytesLess a c = true := by
  induction a with
  | nil =>
    intro b c h1 h2
    cases b with
    | nil => simp [orchestrator.bytesLess] at h1
    | cons bh bt =>
      cases c with
      | nil => simp [orchestrator.bytesLess] at h2
      | cons ch ct => simp [orchestrator.bytesLess]
  | cons ah tl ih =>
    intro b c h1 h2
    cases b with
    | nil => simp [orchestrator.bytesLess] at h1
    | cons bh bt =>
      cases c with
      | nil => simp [orchestrator.bytesLess] at h2
      | cons ch ct =>
        simp only [orchestrator.bytesLess] at h1 h2 ⊢
        by_cases hab : ah.toNat < bh.toNat
        · by_cases hbc : bh.toNat < ch.toNat
          · have : ah.toNat < ch.toNat := by omega
            simp [this]
          · by_cases hcb : ch.toNat < bh.toNat
            · simp [hab, hbc, hcb] at h2
            · have hbc2 : bh.toNat = ch.toNat := by omega
              have : ah.toNat < ch.toNat := by omega
              simp [this]
        · by_cases hba : bh.toNat < ah.toNat
          · simp [hab, hba] at h1
          · have hab2 : ah.toNat = bh.toNat := by omega
            by_cases hbc : bh.toNat < ch.toNat
            · have : ah.toNat < ch.toNat := by omega
              simp [this]
            · by_cases hcb : ch.toNat < bh.toNat
              · simp [hab, hbc, hcb] at h2
              · simp only [hab, hba, if_false] at h1
                simp only [hbc, hcb, if_false] at h2
                have hac : ¬ ah.toNat < ch.toNat := by omega
                have hca : ¬ ch.toNat < ah.toNat := by omega
                simp only [hac, hca, if_false]
                exact ih bt ct h1 h2

/-- The evolution of one `latest` entry across a successful `RegisterVersion`
call: the entry is either untouched or replaced by a record whose version
string is strictly greater in the lexicographic order used by the source. -/
theorem registerVersion_latest_step (vm : orchestrator.VersionManager)
    (v : orchestrator.WorkflowVersion) (id : String) (l : orchestrator.WorkflowVersion)
    (vm1 : orchestrator.VersionManager)
    (h : List.lookup id vm.latest = some l)
    (hok : orchestrator.RegisterVersion vm v = Except.ok vm1) :
    ∃ l', List.lookup id vm1.latest = some l' ∧
      (l'.version = l.version ∨
        orchestrator.bytesLess l.version.data l'.version.data = true) := by
  unfold orchestrator.RegisterVersion at hok
  by_cases h1 : v.workflowID = ""
  · simp [h1] at hok
  · by_cases h2 : v.version = ""
    · simp [h1, h2] at hok
    · rw [if_neg h1, if_neg h2] at hok
      simp only [] at hok
      have hv : vm1 = _ := (Except.ok.inj hok).symm
      subst hv
      by_cases hid : id = v.workflowID
      · subst hid
        rw [h]
        simp only []
        by_cases hnew : orchestrator.isNewerVersion v.version l.version = true
        · rw [if_pos hnew]
          refine ⟨_, lookup_upsert_self _ _ _, Or.inr ?_⟩
          simpa [orchestrator.isNewerVersion] using hnew
        · rw [if_neg hnew]
          exact ⟨l, h, Or.inl rfl⟩
      · refine ⟨l, ?_, Or.inl rfl⟩
        by_cases hup : (match List.lookup v.workflowID vm.latest with
          | none => true
          | some latest => orchestrator.isNewerVersion v.version latest.version) = true
        · rw [if_pos hup]
          rw [lookup_upsert_ne _ _ _ _ hid]
          exact h
        · rw [if_neg hup]
          exact h

/-- C3 (amended): the registry compares versions by Go (lexicographic) string
order, and for every sequence of `RegisterVersion` calls a workflow latest
entry never moves backward in that lexicographic order: it stays or its
version string strictly increases. -/
theorem C3_latest_lexicographically_monotone (regs : List orchestrator.WorkflowVersion) :
    ∀ (vm : orchestrator.VersionManager) (id : String)
      (l : orchestrator.WorkflowVersion),
      List.lookup id vm.latest = some l →
      ∃ l', List.lookup id (orchestrator.applyRegisters vm regs).latest = some l' ∧
        (l'.version = l.version ∨
          orchestrator.bytesLess l.version.data l'.version.data = true) := by
  induction regs with
  | nil => intro vm id l h; exact ⟨l, h, Or.inl rfl⟩
  | cons v rest ih =>
    intro vm id l h
    show ∃ l', List.lookup id (orchestrator.applyRegisters
      (match orchestrator.RegisterVersion vm v with
       | Except.ok vm1 => vm1
       | Except.error _ => vm) rest).latest = some l' ∧ _
    cases hreg : orchestrator.RegisterVersion vm v with
    | error e =>
      exact ih vm id l h
    | ok vm1 =>
      obtain ⟨l1, hl1, hord1⟩ := registerVersion_latest_step vm v id l vm1 h hreg
      obtain ⟨l2, hl2, hord2⟩ := ih vm1 id l1 hl1
      refine ⟨l2, hl2, ?_⟩
      rcases hord1 with hord1 | hord1
      · rcases hord2 with hord2 | hord2
        · exact Or.inl (hord2.trans hord1)
        · rw [hord1] at hord2
          exact Or.inr hord2
      · rcases hord2 with hord2 | hord2
        · rw [hord2]
          exact Or.inr hord1
        · exact Or.inr (bytesLess_trans _ _ _ hord1 hord2)

/-- Witness for the amended C3 theorem at a concrete registry state:
register w = 1.0.0, then apply [w = 2.0.0]; the latest entry for w moves
forward lexicographically. -/
theorem C3_latest_lexicographically_monotone_witness :
    ∃ l', List.lookup "w"
        (orchestrator.applyRegisters
          (orchestrator.applyRegisters orchestrator.NewVersionManager [wvW "1.0.0"])
          [wvW "2.0.0"]).latest = some l' ∧
      (l'.version = (wvW "1.0.0").version ∨
        orchestrator.bytesLess (wvW "1.0.0").version.data l'.version.data = true) :=
  C3_latest_lexicographically_monotone [wvW "2.0.0"]
    (orchestrator.applyRegisters orchestrator.NewVersionManager [wvW "1.0.0"])
    "w" (wvW "1.0.0") (by decide)

namespace orchestrator

/-- Embedding of `ConsistentHashLoadBalancer` (`loadbalancer.go`).  The
third-party hash ring (`github.com/lafikl/consistent`) is external; only its
membership is tracked (`hashRing.Add` / `Remove` / `Size`), which is all the
claims consult.  Counts are `Int`, embedding Go `int`. -/
structure ConsistentHashLoadBalancer where
  ring : List String
  capacities : List (String × Int)
  activeWorkflows : List (String × Int)
  deriving Repr, DecidableEq

/-- Embedding of `NewConsistentHashLoadBalancer` (the `virtualNodes` argument
is ignored by the source constructor as well). -/
def NewConsistentHashLoadBalancer (_virtualNodes : Int) : ConsistentHashLoadBalancer :=
  { ring := [], capacities := [], activeWorkflows := [] }

/-- Embedding of `ConsistentHashLoadBalancer.AddEngine`. -/
def AddEngine (lb : ConsistentHashLoadBalancer) (engineID : String) (capacity : Int) :
    ConsistentHashLoadBalancer :=
  { ring := if lb.ring.contains engineID then lb.ring else lb.ring ++ [engineID]
    capacities := upsert lb.capacities engineID capacity
    activeWorkflows := upsert lb.activeWorkflows engineID 0 }

/-- Embedding of `ConsistentHashLoadBalancer.RemoveEngine`. -/
def RemoveEngine (lb : ConsistentHashLoadBalancer) (engineID : String) :
    ConsistentHashLoadBalancer :=
  { ring := lb.ring.filter (fun x => x != engineID)
    capacities := eraseKey lb.capacities engineID
    activeWorkflows := eraseKey lb.activeWorkflows engineID }

/-- Embedding of `ConsistentHashLoadBalancer.IncrementActiveWorkflows`: the Go
statement `lb.activeWorkflows[engineID]++` reads the zero value for a missing
key, so a missing engine is stored with count 1. -/
def IncrementActiveWorkflows (lb : ConsistentHashLoadBalancer) (engineID : String) :
    ConsistentHashLoadBalancer :=
  { lb with activeWorkflows :=
      upsert lb.activeWorkflows engineID (lookupD lb.activeWorkflows engineID 0 + 1) }

/-- Embedding of `ConsistentHashLoadBalancer.DecrementActiveWorkflows`: the
count is decremented only when it is currently positive. -/
def DecrementActiveWorkflows (lb : ConsistentHashLoadBalancer) (engineID : String) :
    ConsistentHashLoadBalancer :=
  let count := lookupD lb.activeWorkflows engineID 0
  if count > 0 then
    { lb with activeWorkflows := upsert lb.activeWorkflows engineID (count - 1) }
  else lb

/-- Embedding of `ConsistentHashLoadBalancer.GetActiveWorkflows` (a missing
key reads as the zero value). -/
def GetActiveWorkflows (lb : ConsistentHashLoadBalancer) (engineID : String) : Int :=
  lookupD lb.activeWorkflows engineID 0

/-- One call against the balancer, for interleaving arbitrary histories (the
balancer serializes all of these under its mutex). -/
inductive LBOp
  | add (engineID : String) (capacity : Int)
  | remove (engineID : String)
  | incr (engineID : String)
  | decr (engineID : String)
  deriving Repr, DecidableEq

/-- Applies one balancer call. -/
def applyLBOp (lb : ConsistentHashLoadBalancer) : LBOp → ConsistentHashLoadBalancer
  | LBOp.add engineID capacity => AddEngine lb engineID capacity
  | LBOp.remove engineID => RemoveEngine lb engineID
  | LBOp.incr engineID => IncrementActiveWorkflows lb engineID
  | LBOp.decr engineID => DecrementActiveWorkflows lb engineID

/-- Applies a serialized history of balancer calls. -/
def applyLBOps (lb : ConsistentHashLoadBalancer) (ops : List LBOp) :
    ConsistentHashLoadBalancer :=
  ops.foldl applyLBOp lb

/-- Every stored active count is non-negative. -/
def lbNonNeg (lb : ConsistentHashLoadBalancer) : Prop :=
  ∀ p ∈ lb.activeWorkflows, 0 ≤ p.2

end orchestrator

theorem lookup_mem {α : Type} {l : List (String × α)} {k : String} {v : α}
    (h : List.lookup k l = some v) : (k, v) ∈ l := by
  induction l with
  | nil => simp [List.lookup] at h
  | cons p rest ih =>
    by_cases hk : k = p.1
    · subst hk
      simp [List.lookup] at h
      subst h
      exact List.mem_cons.mpr (Or.inl rfl)
    · have h2 : (k == p.1) = false := beq_eq_false_iff_ne.mpr hk
      simp only [List.lookup, h2] at h
      exact List.mem_cons_of_mem _ (ih h)

theorem lbNonNeg_lookupD {lb : orchestrator.ConsistentHashLoadBalancer}
    (h : orchestrator.lbNonNeg lb) (engineID : String) :
    0 ≤ lookupD lb.activeWorkflows engineID 0 := by
  unfold lookupD
  cases hl : List.lookup engineID lb.activeWorkflows with
  | none => simp
  | some c =>
    simp only [Option.getD_some]
    exact h _ (lookup_mem hl)

theorem lbNonNeg_applyLBOp {lb : orchestrator.ConsistentHashLoadBalancer}
    (h : orchestrator.lbNonNeg lb) (op : orchestrator.LBOp) :
    orchestrator.lbNonNeg (orchestrator.applyLBOp lb op) := by
  cases op with
  | add engineID capacity =>
    intro p hp
    rcases mem_upsert hp with h1 | h1
    · subst h1; simp
    · exact h _ h1
  | remove engineID =>
    intro p hp
    exact h _ (List.mem_of_mem_filter hp)
  | incr engineID =>
    intro p hp
    rcases mem_upsert hp with h1 | h1
    · subst h1
      have := lbNonNeg_lookupD h engineID
      simp only []
      omega
    · exact h _ h1
  | decr engineID =>
    simp only [orchestrator.applyLBOp, orchestrator.DecrementActiveWorkflows]
    by_cases hc : lookupD lb.activeWorkflows engineID 0 > 0
    · rw [if_pos hc]
      intro p hp
      rcases mem_upsert hp with h1 | h1
      · subst h1
        simp only []
        omega
      · exact h _ h1
    · rw [if_neg hc]
      exact h

theorem lbNonNeg_applyLBOps {lb : orchestrator.ConsistentHashLoadBalancer}
    (h : orchestrator.lbNonNeg lb) (ops : List orchestrator.LBOp) :
    orchestrator.lbNonNeg (orchestrator.applyLBOps lb ops) := by
  induction ops generalizing lb with
  | nil => exact h
  | cons op rest ih => exact ih (lbNonNeg_applyLBOp h op)

/-- C10: starting from a fresh consistent-hash balancer, for every serialized
history of AddEngine, RemoveEngine, IncrementActiveWorkflows and
DecrementActiveWorkflows calls and every engine id, GetActiveWorkflows
returns a non-negative count (DecrementActiveWorkflows is a no-op at zero). -/
theorem C10_active_count_never_negative (ops : List orchestrator.LBOp)
    (engineID : String) (virtualNodes : Int) :
    0 ≤ orchestrator.GetActiveWorkflows
      (orchestrator.applyLBOps
        (orchestrator.NewConsistentHashLoadBalancer virtualNodes) ops) engineID := by
  have h0 : orchestrator.lbNonNeg
      (orchestrator.NewConsistentHashLoadBalancer virtualNodes) := by
    intro p hp
    simp [orchestrator.NewConsistentHashLoadBalancer] at hp
  exact lbNonNeg_lookupD (lbNonNeg_applyLBOps h0 ops) engineID

/-- Witness for C10 at a concrete history that exercises the at-zero
decrement: add e1, decrement twice, increment once, decrement twice again. -/
theorem C10_active_count_never_negative_witness :
    0 ≤ orchestrator.GetActiveWorkflows
      (orchestrator.applyLBOps (orchestrator.NewConsistentHashLoadBalancer 150)
        [orchestrator.LBOp.add "e1" 10, orchestrator.LBOp.decr "e1",
         orchestrator.LBOp.decr "e1", orchestrator.LBOp.incr "e1",
         orchestrator.LBOp.decr "e1", orchestrator.LBOp.decr "e1"]) "e1" :=
  C10_active_count_never_negative
    [orchestrator.LBOp.add "e1" 10, orchestrator.LBOp.decr "e1",
     orchestrator.LBOp.decr "e1", orchestrator.LBOp.incr "e1",
     orchestrator.LBOp.decr "e1", orchestrator.LBOp.decr "e1"] "e1" 150

namespace engine

/-- Embedding of `WorkflowExecution` (engine service): the fields the claims
consult.  The `Engine`, timestamps and context/cancel plumbing are external. -/
structure WorkflowExecution where
  executionID : String
  workflowID : String
  version : String
  status : String
  deriving Repr, DecidableEq

/-- Embedding of `EngineService`. -/
structure EngineService where
  id : String
  capacity : Int
  activeWorkflows : List (String × WorkflowExecution)
  deriving Repr, DecidableEq

/-- Embedding of `NewEngineService`. -/
def NewEngineService (id : String) (capacity : Int) : EngineService :=
  { id := id, capacity := capacity, activeWorkflows := [] }

/-- Embedding of `EngineService.ExecuteWorkflow` up to the point the mutex is
released: under the lock, if `len(activeWorkflows) >= capacity` the call
fails with the at-capacity error and nothing is stored; otherwise a record
with `Status = "RUNNING"` is inserted.  The spawned goroutine that later runs
the scheduler and deletes the record is a separate event and does not affect
the synchronous result.  Returns `(error?, state afterwards)`. -/
def ExecuteWorkflow (es : EngineService) (workflowID version executionID : String) :
    Option String × EngineService :=
  if es.capacity ≤ (es.activeWorkflows.length : Int) then
    (some "engine at capacity", es)
  else
    let ex : WorkflowExecution :=
      { executionID := executionID, workflowID := workflowID,
        version := version, status := "RUNNING" }
    (none, { es with activeWorkflows := upsert es.activeWorkflows executionID ex })

/-- Embedding of `EngineService.GetActiveWorkflows`. -/
def GetActiveWorkflows (es : EngineService) : Int :=
  (es.activeWorkflows.length : Int)

/-- Embedding of `EngineService.GetWorkflowStatus`. -/
def GetWorkflowStatus (es : EngineService) (executionID : String) :
    Except String String :=
  match List.lookup executionID es.activeWorkflows with
  | none => Except.error ("workflow not found: " ++ executionID)
  | some ex => Except.ok ex.status

end engine

/-- C7: EngineService.ExecuteWorkflow fails exactly when the number of active
executions has reached capacity, and on that failure the engine state is
unchanged (no record is created, so the refused execution never appears, in
particular never as RUNNING). -/
theorem C7_execute_fails_iff_at_capacity (es : engine.EngineService)
    (workflowID version executionID : String) :
    ((engine.ExecuteWorkflow es workflowID version executionID).1.isSome =
        decide (es.capacity ≤ (es.activeWorkflows.length : Int))) ∧
    ((engine.ExecuteWorkflow es workflowID version executionID).1.isSome = true →
      (engine.ExecuteWorkflow es workflowID version executionID).2 = es) := by
  unfold engine.ExecuteWorkflow
  by_cases h : es.capacity ≤ (es.activeWorkflows.length : Int)
  · rw [if_pos h]
    exact ⟨by simp [h], fun _ => rfl⟩
  · rw [if_neg h]
    exact ⟨by simp [h], by simp⟩

/-- Witness for C7, realizing the capacity back-pressure scenario: a fresh
engine of capacity 1 admits a first execution; the resulting state refuses a
second one and is left unchanged by the refusal. -/
theorem C7_execute_fails_iff_at_capacity_witness :
    ((engine.ExecuteWorkflow
        (engine.ExecuteWorkflow (engine.NewEngineService "e1" 1) "wf" "1.0.0" "exec-1").2
        "wf" "1.0.0" "exec-2").1.isSome =
      decide ((engine.ExecuteWorkflow (engine.NewEngineService "e1" 1) "wf" "1.0.0"
          "exec-1").2.capacity ≤
        ((engine.ExecuteWorkflow (engine.NewEngineService "e1" 1) "wf" "1.0.0"
          "exec-1").2.activeWorkflows.length : Int))) ∧
    ((engine.ExecuteWorkflow
        (engine.ExecuteWorkflow (engine.NewEngineService "e1" 1) "wf" "1.0.0" "exec-1").2
        "wf" "1.0.0" "exec-2").1.isSome = true →
      (engine.ExecuteWorkflow
        (engine.ExecuteWorkflow (engine.NewEngineService "e1" 1) "wf" "1.0.0" "exec-1").2
        "wf" "1.0.0" "exec-2").2 =
      (engine.ExecuteWorkflow (engine.NewEngineService "e1" 1) "wf" "1.0.0" "exec-1").2) :=
  C7_execute_fails_iff_at_capacity
    (engine.ExecuteWorkflow (engine.NewEngineService "e1" 1) "wf" "1.0.0" "exec-1").2
    "wf" "1.0.0" "exec-2"

namespace orchestrator

/-- Embedding of `SubWorkflowExecution` (sub-workflow coordinator): the fields
the claims consult (timestamps, outputs and the error value are external
payload). -/
structure SubWorkflowExecution where
  executionID : String
  subWorkflowID : String
  subWorkflowVersion : String
  parentWorkflowID : String
  parentExecutionID : String
  status : String
  deriving Repr, DecidableEq

/-- Embedding of `SubWorkflowCoordinator`: the two maps
`activeSubWorkflows : executionID -> execution` and
`parentToChildren : parentExecutionID -> childExecutionIDs`. -/
structure SubWorkflowCoordinator where
  activeSubWorkflows : List (String × SubWorkflowExecution)
  parentToChildren : List (String × List String)
  deriving Repr, DecidableEq

/-- Embedding of `SubWorkflowCoordinator.CancelChildren`.  The returned list
records every stop instruction dispatched toward an engine runtime during the
call; at the point where such an instruction would be issued the source holds
only the comment `// TODO: Cancel through orchestrator`, so the loop flips
each RUNNING child record to CANCELLED and dispatches nothing. -/
def CancelChildren (swc : SubWorkflowCoordinator) (parentExecutionID : String) :
    SubWorkflowCoordinator × List String :=
  let children := lookupD swc.parentToChildren parentExecutionID []
  children.foldl
    (fun acc childID =>
      match List.lookup childID acc.1.activeSubWorkflows with
      | none => acc
      | some ex =>
        if ex.status = "RUNNING" then
          let ex1 := { ex with status := "CANCELLED" }
          ({ acc.1 with
             activeSubWorkflows := upsert acc.1.activeSubWorkflows childID ex1 }, acc.2)
        else acc)
    (swc, [])

/-- Status of a child record in a coordinator (empty when the id is unknown). -/
def subStatusOf (swc : SubWorkflowCoordinator) (executionID : String) : String :=
  match List.lookup executionID swc.activeSubWorkflows with
  | none => ""
  | some ex => ex.status

end orchestrator

/-- A coordinator holding one RUNNING child of parent exec-p. -/
def swcC6 : orchestrator.SubWorkflowCoordinator :=
  { activeSubWorkflows :=
      [("exec-p-sub-1",
        { executionID := "exec-p-sub-1", subWorkflowID := "child-wf",
          subWorkflowVersion := "1.0.0", parentWorkflowID := "parent-wf",
          parentExecutionID := "exec-p", status := "RUNNING" })]
    parentToChildren := [("exec-p", ["exec-p-sub-1"])] }

/-- C6: the claim states CancelChildren dispatches a stop_workflow instruction
to the engine runtime for each RUNNING child before flipping its record to
CANCELLED.  Evaluated on a parent with one RUNNING child: the record is
flipped to CANCELLED while the set of stop instructions dispatched during the
call is empty — the stop never reaches the engine. -/
theorem C6_cancel_children_dispatches_no_stop :
    (orchestrator.CancelChildren swcC6 "exec-p").2 = [] ∧
    orchestrator.subStatusOf (orchestrator.CancelChildren swcC6 "exec-p").1
      "exec-p-sub-1" = "CANCELLED" := by
  decide

namespace orchestrator

/-- Decimal digit character, as produced by Go `fmt.Sprintf("%d", ...)`. -/
def goDigit (k : Nat) : Char := Char.ofNat (48 + k)

/-- Fuel-driven decimal rendering of a natural number (most significant digit
first), the embedding of the `%d` verb of `fmt.Sprintf`. -/
def natDigitsAux : Nat → Nat → List Char
  | 0, _ => []
  | fuel + 1, n =>
    if n < 10 then [goDigit n]
    else natDigitsAux fuel (n / 10) ++ [goDigit (n % 10)]

/-- Decimal rendering of a natural number. -/
def natDigits (n : Nat) : List Char := natDigitsAux (n + 1) n

/-- Embedding of `OrchestratorV2.nextExecutionID`: under the counter mutex the
counter is incremented and the id `exec-<unix_nanos>-<counter>` is rendered.
The clock reading is an external input.  The Go counter is an `int64` that
starts at 0 and is only ever incremented, embedded as `Nat`. -/
def nextExecutionID (executionCounter : Nat) (nowUnixNano : Nat) : Nat × String :=
  (executionCounter + 1,
    String.mk ("exec-".data ++ natDigits nowUnixNano ++
      '-' :: natDigits (executionCounter + 1)))

/-- The ids produced by a sequence of `nextExecutionID` calls on one
dispatcher (the mutex serializes the calls; the list supplies the clock
reading observed by each call, so racing clocks and repeated timestamps are
all covered). -/
def runDispatcher : Nat → List Nat → List String
  | _, [] => []
  | counter, t :: ts =>
    (nextExecutionID counter t).2 :: runDispatcher (nextExecutionID counter t).1 ts

/-- Decimal digit test on a character (byte range 48-57). -/
def isDigitB (ch : Char) : Bool :=
  decide (48 ≤ ch.toNat) && decide (ch.toNat ≤ 57)

/-- Value of a digit character. -/
def dval (ch : Char) : Nat := ch.toNat - 48

/-- Value of a most-significant-first digit string. -/
def valDigits (l : List Char) : Nat :=
  l.foldl (fun acc ch => 10 * acc + dval ch) 0

/-- The trailing `<counter>` component of an execution id: the maximal digit
suffix, read as a decimal number. -/
def counterOf (s : String) : Nat :=
  valDigits (List.reverse (s.data.reverse.takeWhile isDigitB))

end orchestrator

theorem natDigitsAux_fuel (f1 : Nat) : ∀ f2 n, n < f1 → n < f2 →
    orchestrator.natDigitsAux f1 n = orchestrator.natDigitsAux f2 n := by
  induction f1 with
  | zero => intro f2 n h1 _; omega
  | succ f1 ih =>
    intro f2 n h1 h2
    cases f2 with
    | zero => omega
    | succ f2 =>
      simp only [orchestrator.natDigitsAux]
      by_cases h10 : n < 10
      · rw [if_pos h10, if_pos h10]
      · rw [if_neg h10, if_neg h10]
        have hdiv : n / 10 < n := Nat.div_lt_self (by omega) (by omega)
        rw [ih f2 (n / 10) (by omega) (by omega)]

theorem natDigits_eq (n : Nat) :
    orchestrator.natDigits n =
      if n < 10 then [orchestrator.goDigit n]
      else orchestrator.natDigits (n / 10) ++ [orchestrator.goDigit (n % 10)] := by
  unfold orchestrator.natDigits
  simp only [orchestrator.natDigitsAux]
  by_cases h10 : n < 10
  · rw [if_pos h10, if_pos h10]
  · rw [if_neg h10, if_neg h10]
    have hdiv : n / 10 < n := Nat.div_lt_self (by omega) (by omega)
    rw [natDigitsAux_fuel n (n / 10 + 1) (n / 10) (by omega) (by omega)]
    simp only [orchestrator.natDigitsAux]

theorem goDigit_toNat {k : Nat} (h : k < 10) :
    (orchestrator.goDigit k).toNat = 48 + k := by
  interval_cases k <;> decide

theorem goDigit_isDigit {k : Nat} (h : k < 10) :
    orchestrator.isDigitB (orchestrator.goDigit k) = true := by
  interval_cases k <;> decide

theorem natDigits_isDigit (n : Nat) :
    ∀ ch ∈ orchestrator.natDigits n, orchestrator.isDigitB ch = true := by
  induction n using Nat.strong_induction_on with
  | _ n ih =>
    intro ch hch
    rw [natDigits_eq] at hch
    by_cases h10 : n < 10
    · rw [if_pos h10] at hch
      rcases List.mem_singleton.mp hch with rfl
      exact goDigit_isDigit h10
    · rw [if_neg h10] at hch
      rcases List.mem_append.mp hch with h1 | h1
      · have hdiv : n / 10 < n := Nat.div_lt_self (by omega) (by omega)
        exact ih (n / 10) hdiv ch h1
      · rcases List.mem_singleton.mp h1 with rfl
        exact goDigit_isDigit (Nat.mod_lt n (by omega))

theorem valDigits_append_digit (l : List Char) (d : Char) :
    orchestrator.valDigits (l ++ [d]) =
      10 * orchestrator.valDigits l + orchestrator.dval d := by
  unfold orchestrator.valDigits
  rw [List.foldl_append]
  simp

theorem valDigits_natDigits (n : Nat) :
    orchestrator.valDigits (orchestrator.natDigits n) = n := by
  induction n using Nat.strong_induction_on with
  | _ n ih =>
    rw [natDigits_eq]
    by_cases h10 : n < 10
    · rw [if_pos h10]
      show orchestrator.valDigits ([] ++ [orchestrator.goDigit n]) = n
      rw [valDigits_append_digit]
      have := goDigit_toNat h10
      unfold orchestrator.dval
      simp only [this]
      unfold orchestrator.valDigits
      simp only [List.foldl_nil]
      omega
    · rw [if_neg h10]
      rw [valDigits_append_digit]
      have hdiv : n / 10 < n := Nat.div_lt_self (by omega) (by omega)
      rw [ih (n / 10) hdiv]
      have hm : n % 10 < 10 := Nat.mod_lt n (by omega)
      have := goDigit_toNat hm
      unfold orchestrator.dval
      rw [this]
      omega

theorem takeWhile_digits_append (p : Char → Bool) :
    ∀ (l : List Char) (x : Char) (r : List Char),
      (∀ a ∈ l, p a = true) → p x = false →
      List.takeWhile p (l ++ x :: r) = l := by
  intro l
  induction l with
  | nil =>
    intro x r _ hx
    simp [List.takeWhile, hx]
  | cons a l ih =>
    intro x r hall hx
    have ha : p a = true := hall a (List.mem_cons.mpr (Or.inl rfl))
    simp only [List.cons_append, List.takeWhile, ha, List.append_eq]
    rw [ih x r (fun b hb => hall b (List.mem_cons_of_mem _ hb)) hx]

theorem counterOf_nextExecutionID (c t : Nat) :
    orchestrator.counterOf (orchestrator.nextExecutionID c t).2 = c + 1 := by
  have hdata : (orchestrator.nextExecutionID c t).2.data =
      ("exec-".data ++ orchestrator.natDigits t) ++
        ('-' :: orchestrator.natDigits (c + 1)) := by
    simp [orchestrator.nextExecutionID, List.append_assoc]
  unfold orchestrator.counterOf
  rw [hdata, List.reverse_append, List.reverse_cons, List.append_assoc,
    List.singleton_append]
  rw [takeWhile_digits_append orchestrator.isDigitB
    (orchestrator.natDigits (c + 1)).reverse '-' _
    (fun a ha => natDigits_isDigit (c + 1) a (List.mem_reverse.mp ha))
    (by decide)]
  rw [List.reverse_reverse]
  exact valDigits_natDigits (c + 1)

theorem runDispatcher_counterOf_gt (ts : List Nat) : ∀ c0 s,
    s ∈ orchestrator.runDispatcher c0 ts → c0 < orchestrator.counterOf s := by
  induction ts with
  | nil => intro c0 s h; simp [orchestrator.runDispatcher] at h
  | cons t ts ih =>
    intro c0 s h
    rcases List.mem_cons.mp h with h1 | h1
    · subst h1
      rw [counterOf_nextExecutionID]
      omega
    · have := ih (orchestrator.nextExecutionID c0 t).1 s h1
      have hc : (orchestrator.nextExecutionID c0 t).1 = c0 + 1 := rfl
      omega

/-- C8: for every initial counter value and every serialized sequence of
`nextExecutionID` calls on one dispatcher (with arbitrary, possibly repeating
clock readings), the trailing counters of the returned ids strictly increase,
and consequently the ids are pairwise distinct. -/
theorem C8_execution_ids_pairwise_distinct (c0 : Nat) (ts : List Nat) :
    (orchestrator.runDispatcher c0 ts).Pairwise
      (fun a b => orchestrator.counterOf a < orchestrator.counterOf b) ∧
    (orchestrator.runDispatcher c0 ts).Pairwise (fun a b => a ≠ b) := by
  have hmain : ∀ ts c0, (orchestrator.runDispatcher c0 ts).Pairwise
      (fun a b => orchestrator.counterOf a < orchestrator.counterOf b) := by
    intro ts
    induction ts with
    | nil => intro c0; exact List.Pairwise.nil
    | cons t ts ih =>
      intro c0
      refine List.Pairwise.cons ?_ (ih (orchestrator.nextExecutionID c0 t).1)
      intro s hs
      have h1 := runDispatcher_counterOf_gt ts (orchestrator.nextExecutionID c0 t).1 s hs
      have hc : (orchestrator.nextExecutionID c0 t).1 = c0 + 1 := rfl
      rw [counterOf_nextExecutionID]
      omega
  refine ⟨hmain ts c0, (hmain ts c0).imp ?_⟩
  intro a b hab heq
  rw [heq] at hab
  omega

/-- Witness for C8 at a concrete history: three calls sharing one clock
reading (counter 0, all timestamps 7). -/
theorem C8_execution_ids_pairwise_distinct_witness :
    (orchestrator.runDispatcher 0 [7, 7, 7]).Pairwise
      (fun a b => orchestrator.counterOf a < orchestrator.counterOf b) ∧
    (orchestrator.runDispatcher 0 [7, 7, 7]).Pairwise (fun a b => a ≠ b) :=
  C8_execution_ids_pairwise_distinct 0 [7, 7, 7]

namespace orchestrator

/-- The dynamic type of the load balancer held by `OrchestratorV2`: the
constructor switch instantiates exactly one of the two implementations. -/
inductive LBKind
  | consistentHash
  | roundRobin
  deriving Repr, DecidableEq

/-- Embedding of the `Config` fields consulted by `Config.Validate` and the
constructor switches. -/
structure ConfigM where
  transportType : String
  loadBalancerType : String
  grpcPort : Int
  deriving Repr, DecidableEq

/-- Embedding of `Config.Validate`. -/
def configValidate (c : ConfigM) : Except String Unit :=
  if c.transportType ≠ "grpc" then
    Except.error ("unsupported transport type: " ++ c.transportType)
  else if c.loadBalancerType ≠ "consistent-hash" ∧
      c.loadBalancerType ≠ "round-robin" ∧
      c.loadBalancerType ≠ "least-connections" then
    Except.error ("unsupported load balancer type: " ++ c.loadBalancerType)
  else if c.grpcPort ≤ 0 ∨ c.grpcPort > 65535 then
    Except.error "invalid gRPC port"
  else Except.ok ()

/-- Embedding of `NewOrchestratorV2` up to the choice of load balancer:
validate the config, then switch on `LoadBalancerType` (note that
"least-connections" passes validation but has no case in the switch), then
switch on `TransportType`.  Discovery construction is an external
collaborator; it can only fail the constructor, not change the balancer, so
the returned value is the dynamic balancer type the constructed orchestrator
would hold. -/
def newOrchestratorV2LoadBalancer (c : ConfigM) : Except String LBKind :=
  match configValidate c with
  | Except.error e => Except.error ("invalid config: " ++ e)
  | Except.ok _ =>
    if c.loadBalancerType = "consistent-hash" then Except.ok LBKind.consistentHash
    else if c.loadBalancerType = "round-robin" then Except.ok LBKind.roundRobin
    else Except.error ("unsupported load balancer type: " ++ c.loadBalancerType)

/-- Outcomes of the external collaborators consulted by
`OrchestratorV2.ExecuteWorkflow`, in the order the method consults them. -/
structure ExecEnv where
  hasWorkflow : Bool
  latestVersion : Option String
  selectedEngine : Option String
  engineInfoPresent : Bool
  buildOk : Bool
  connectOk : Bool
  remoteSuccess : Option Bool
  deriving Repr, DecidableEq

/-- Result of an `ExecuteWorkflow` call: a response, an error return, or a
runtime panic. -/
inductive ExecOutcome
  | response (success : Bool)
  | errorResult (msg : String)
  | panicked
  deriving Repr, DecidableEq

/-- Embedding of `OrchestratorV2.ExecuteWorkflow`: workflow lookup, latest
version, execution id minting, engine selection, engine info lookup,
definition build, input conversion, transport connect — then the bookkeeping
step `o.loadBalancer.(*ConsistentHashLoadBalancer).IncrementActiveWorkflows`,
an unchecked type assertion that panics unless the dynamic type of the
balancer is `*ConsistentHashLoadBalancer`, and finally the remote call. -/
def ExecuteWorkflowV2 (lb : LBKind) (env : ExecEnv) : ExecOutcome :=
  if !env.hasWorkflow then ExecOutcome.errorResult "workflow not found"
  else
    match env.latestVersion with
    | none => ExecOutcome.errorResult "failed to get workflow version"
    | some _ =>
      match env.selectedEngine with
      | none => ExecOutcome.errorResult "failed to select engine"
      | some _ =>
        if !env.engineInfoPresent then ExecOutcome.errorResult "engine not found"
        else if !env.buildOk then ExecOutcome.errorResult "failed to build workflow"
        else if !env.connectOk then
          ExecOutcome.errorResult "failed to connect to engine"
        else
          match lb with
          | LBKind.roundRobin => ExecOutcome.panicked
          | LBKind.consistentHash =>
            match env.remoteSuccess with
            | none => ExecOutcome.errorResult "remote execution failed"
            | some b => ExecOutcome.response b

/-- Whether an `ExecuteWorkflow` call reaches the active-count bookkeeping
step: every step before the type assertion succeeds. -/
def reachesBookkeeping (env : ExecEnv) : Bool :=
  env.hasWorkflow && env.latestVersion.isSome && env.selectedEngine.isSome &&
    env.engineInfoPresent && env.buildOk && env.connectOk

end orchestrator

/-- The configuration selecting the round-robin balancer (accepted by the
constructor). -/
def cfgRoundRobin : orchestrator.ConfigM :=
  { transportType := "grpc", loadBalancerType := "round-robin", grpcPort := 50051 }

/-- C9: the constructor accepts `load_balancer_type = "round-robin"`, yet
every `ExecuteWorkflow` call that reaches the active-count bookkeeping step
under a round-robin balancer panics on the failing type assertion to
`*ConsistentHashLoadBalancer` rather than returning a response or an error;
a call that reaches that step and does not panic must be running the
consistent-hash implementation. -/
theorem C9_roundrobin_execute_panics (env : orchestrator.ExecEnv)
    (h : orchestrator.reachesBookkeeping env = true) :
    (orchestrator.newOrchestratorV2LoadBalancer cfgRoundRobin =
        Except.ok orchestrator.LBKind.roundRobin) ∧
    (orchestrator.ExecuteWorkflowV2 orchestrator.LBKind.roundRobin env =
        orchestrator.ExecOutcome.panicked) ∧
    (∀ lb : orchestrator.LBKind,
      orchestrator.ExecuteWorkflowV2 lb env ≠ orchestrator.ExecOutcome.panicked →
      lb = orchestrator.LBKind.consistentHash) := by
  unfold orchestrator.reachesBookkeeping at h
  simp only [Bool.and_eq_true] at h
  obtain ⟨⟨⟨⟨⟨h1, h2⟩, h3⟩, h4⟩, h5⟩, h6⟩ := h
  cases hv : env.latestVersion with
  | none => rw [hv] at h2; simp at h2
  | some v =>
    cases he : env.selectedEngine with
    | none => rw [he] at h3; simp at h3
    | some eid =>
      refine ⟨rfl, ?_, ?_⟩
      · unfold orchestrator.ExecuteWorkflowV2
        rw [hv, he]
        simp [h1, h4, h5, h6]
      · intro lb hlb
        cases lb with
        | consistentHash => rfl
        | roundRobin =>
          exfalso
          apply hlb
          unfold orchestrator.ExecuteWorkflowV2
          rw [hv, he]
          simp [h1, h4, h5, h6]

/-- Witness for C9 at the environment in which every collaborator succeeds. -/
theorem C9_roundrobin_execute_panics_witness :
    (orchestrator.newOrchestratorV2LoadBalancer cfgRoundRobin =
        Except.ok orchestrator.LBKind.roundRobin) ∧
    (orchestrator.ExecuteWorkflowV2 orchestrator.LBKind.roundRobin
        { hasWorkflow := true, latestVersion := some "1.0.0",
          selectedEngine := some "e1", engineInfoPresent := true,
          buildOk := true, connectOk := true, remoteSuccess := some true } =
        orchestrator.ExecOutcome.panicked) ∧
    (∀ lb : orchestrator.LBKind,
      orchestrator.ExecuteWorkflowV2 lb
          { hasWorkflow := true, latestVersion := some "1.0.0",
            selectedEngine := some "e1", engineInfoPresent := true,
            buildOk := true, connectOk := true, remoteSuccess := some true } ≠
        orchestrator.ExecOutcome.panicked →
      lb = orchestrator.LBKind.consistentHash) :=
  C9_roundrobin_execute_panics
    { hasWorkflow := true, latestVersion := some "1.0.0",
      selectedEngine := some "e1", engineInfoPresent := true,
      buildOk := true, connectOk := true, remoteSuccess := some true }
    (by decide)
